import Mathlib

/-!
# multi-gotty: the request handlers of `app/app.go`

A shallow embedding of `App.handleWS`, `App.handleRequest`, `App.restartTimer`,
`App.Exit`, `New` and `Run` of `app/app.go`.  Handlers are written as state
passing functions on an `App` record; the outcome of every call into a
collaborator (WebSocket upgrade, first read, JSON decoding, pty spawn) is an
input of the handler.
-/

namespace MultiGotty

/-! ## Machine integers -/

/-- Two's complement reduction of an integer to the `int64` range. -/
def wrapInt64 (x : Int) : Int := (x + 2 ^ 63) % 2 ^ 64 - 2 ^ 63

/-- Largest `int64`. -/
def maxInt64 : Int := 2 ^ 63 - 1

/-- Smallest `int64`. -/
def minInt64 : Int := -(2 ^ 63)

/-- Go's `atomic.AddInt64(addr, delta)`: the new value stored at `addr`, which is
also the value returned. Go's `int64` addition wraps around. -/
def atomicAddInt64 (v delta : Int) : Int := wrapInt64 (v + delta)

/-! ## Data model -/

/-- The handshake payload `InitMessage` (app.go:23-26). -/
structure InitMessage where
  Arguments : String
  AuthToken : String
  deriving DecidableEq, Repr

/-- The configuration `Options` (app.go:44-71); `Preferences` and `RawPreferences` are left out
(their types are declared outside `app.go` and no handler reads them). -/
structure Options where
  Address : String
  Port : String
  WSOrigin : String
  PermitWrite : Bool
  EnableBasicAuth : Bool
  Credential : String
  EnableRandomUrl : Bool
  RandomUrlLength : Int
  IndexFile : String
  EnableTLS : Bool
  TLSCrtFile : String
  TLSKeyFile : String
  EnableTLSClientAuth : Bool
  TLSCACrtFile : String
  TitleFormat : String
  EnableReconnect : Bool
  ReconnectTime : Int
  MaxConnection : Int
  Once : Bool
  Timeout : Int
  PermitArguments : Bool
  CloseSignal : Int
  Width : Int
  Height : Int
  deriving DecidableEq, Repr

/-- The value `DefaultOptions` (app.go:73-97); fields the literal does not list take Go's
zero value. -/
def DefaultOptions : Options where
  Address := ""
  Port := "8080"
  WSOrigin := "http://127.0.0.1"
  PermitWrite := false
  EnableBasicAuth := false
  Credential := ""
  EnableRandomUrl := false
  RandomUrlLength := 8
  IndexFile := ""
  EnableTLS := false
  TLSCrtFile := "~/.gotty.crt"
  TLSKeyFile := "~/.gotty.key"
  EnableTLSClientAuth := false
  TLSCACrtFile := "~/.gotty.ca.crt"
  TitleFormat := "GoTTY"
  EnableReconnect := false
  ReconnectTime := 10
  MaxConnection := 0
  Once := false
  Timeout := 0
  PermitArguments := false
  CloseSignal := 1
  Width := 0
  Height := 0

/-- Modelled from the spec: the Shutdown Coordinator, `manners.GracefulServer`,
a dependency whose code is not part of the source tree. It tracks the number of
in-flight sessions (`markStart` / `markEnd`) and whether a close has been
requested (`requestClose`). -/
structure GracefulServer where
  closed : Bool
  routines : Int
  deriving DecidableEq, Repr

/-- Modelled from the spec: `markStart()` of the Shutdown Coordinator
(`server.StartRoutine`), one more in-flight session. -/
def GracefulServer.StartRoutine (s : GracefulServer) : GracefulServer :=
  { s with routines := s.routines + 1 }

/-- Modelled from the spec: `markEnd()` of the Shutdown Coordinator
(`server.FinishRoutine`), one in-flight session fewer. -/
def GracefulServer.FinishRoutine (s : GracefulServer) : GracefulServer :=
  { s with routines := s.routines - 1 }

/-- Modelled from the spec: `requestClose() -> firstCall bool` of the Shutdown
Coordinator (`server.Close`): returns whether this is the first close request;
later requests change nothing. -/
def GracefulServer.Close (s : GracefulServer) : Bool × GracefulServer :=
  (!s.closed, { s with closed := true })

/-- A `*time.Timer` that has been created: the duration (in nanoseconds) it was
last armed with. -/
structure Timer where
  duration : Int
  deriving DecidableEq, Repr

/-- The type `App` (app.go:28-42). `server` and `timer` are pointers, `none` is `nil`;
`connections` is the `int64` behind the pointer. The upgrader and the title
template hold no state a handler changes; the result of `upgrader.Upgrade` is an
input of `handleWS`. -/
structure App where
  commandServer : String
  options : Options
  server : Option GracefulServer
  timer : Option Timer
  connections : Int
  deriving DecidableEq, Repr

/-- The fields of `*http.Request` the handlers read. -/
structure Request where
  Method : String
  Path : String
  RemoteAddr : String
  deriving DecidableEq, Repr

/-- The upgraded `*websocket.Conn`: whether `Close` has been called on it. -/
structure Conn where
  closed : Bool
  deriving DecidableEq, Repr

/-- The `*exec.Cmd` built by `exec.Command(name, arg...)`. -/
structure Cmd where
  name : String
  arg : List String
  deriving DecidableEq, Repr

/-- What the collaborators of `handleWS` answer, in the order it calls them:
`app.upgrader.Upgrade`, `conn.ReadMessage`, `json.Unmarshal` into an
`InitMessage`, and `pty.Start` (the pid of the started process). `none` is a
non-nil `err`. -/
structure Collaborators where
  upgrade : Bool
  readMessage : Option String
  unmarshal : String → Option InitMessage
  ptyStart : Cmd → Option Nat

/-- Go run-time panics the handlers can raise. -/
inductive Panic where
  /-- Slice bounds out of range (`s[:n]` with `n > cap(s)`, `s[1:]` of an empty slice). -/
  | sliceBounds
  /-- Index out of range (`s[i]` with `i >= len(s)`). -/
  | indexOutOfRange
  /-- Nil pointer dereference. -/
  | nilDereference
  deriving DecidableEq, Repr

deriving instance DecidableEq for Except

/-- The statement at which a call of `handleWS` ends. -/
inductive Outcome where
  /-- Return at app.go:189, "Reached max connection". -/
  | reachedMax
  /-- Return at app.go:196, status 405. -/
  | methodNotAllowed
  /-- Return at app.go:202, the upgrade failed. -/
  | upgradeFailed
  /-- Return at app.go:209, the first read failed. -/
  | readFailed
  /-- Return at app.go:217, the first message is no `InitMessage`. -/
  | parseFailed
  /-- Run-time panic: `command[1:]` of an empty slice (app.go:219) or
  `StartRoutine` through a nil `app.server` (app.go:220). -/
  | panicked (p : Panic)
  /-- Return at app.go:226, `pty.Start` failed. -/
  | spawnFailed
  /-- Call of `context.goHandleClient()` (app.go:246) with the started process. -/
  | running (pid : Nat)
  deriving DecidableEq, Repr

/-- State when `handleWS` ends: the `App`, the upgraded connection (if the
upgrade was reached and succeeded), the command handed to `pty.Start` (if that
call was reached) and the exit taken. -/
structure WSResult where
  app : App
  conn : Option Conn
  cmd : Option Cmd
  exit : Outcome
  deriving DecidableEq, Repr

/-! ## `App.handleWS` (app.go:184-247) -/

/-- The handler `App.handleWS`. The counter is raised first (app.go:185) and
compared with `MaxConnection` (app.go:186-191); then come the method check, the
upgrade, the first read and its decoding; `argv := command[1:]`,
`app.server.StartRoutine()`, `exec.Command(command[0], argv...)` and
`pty.Start(cmd)` follow (app.go:219-227). No return statement of `handleWS`
touches the counter again; `conn.Close()` is called at app.go:208 and app.go:216
only. -/
def handleWS (app : App) (command : List String) (r : Request) (env : Collaborators) :
    WSResult :=
  let connections := atomicAddInt64 app.connections 1
  let app := { app with connections := connections }
  if app.options.MaxConnection ≠ 0 ∧ connections > app.options.MaxConnection then
    ⟨app, none, none, .reachedMax⟩
  else if r.Method ≠ "GET" then
    ⟨app, none, none, .methodNotAllowed⟩
  else if env.upgrade = false then
    ⟨app, none, none, .upgradeFailed⟩
  else
    match env.readMessage with
    | none => ⟨app, some ⟨true⟩, none, .readFailed⟩
    | some stream =>
      match env.unmarshal stream with
      | none => ⟨app, some ⟨true⟩, none, .parseFailed⟩
      | some _init =>
        match command with
        | [] => ⟨app, some ⟨false⟩, none, .panicked .sliceBounds⟩
        | name :: argv =>
          match app.server with
          | none => ⟨app, some ⟨false⟩, none, .panicked .nilDereference⟩
          | some server =>
            let app := { app with server := some server.StartRoutine }
            let cmd : Cmd := ⟨name, argv⟩
            match env.ptyStart cmd with
            | none => ⟨app, some ⟨false⟩, some cmd, .spawnFailed⟩
            | some pid => ⟨app, some ⟨false⟩, some cmd, .running pid⟩

/-- Modelled from the spec: session teardown, which lives in
`clientContext.goHandleClient` (a file absent from the source tree): "the
session, once admitted, always decrements the admission counter on teardown,
exactly once", and it notifies the Shutdown Coordinator that the session has
ended. -/
def teardown (app : App) : App :=
  { app with
    connections := atomicAddInt64 app.connections (-1)
    server := app.server.map GracefulServer.FinishRoutine }

/-- Modelled from the spec: the tokenizer of the `Arguments` string ("extra
argv, space-tokenized"); the source tree holds no tokenizer. The tokens are the
maximal runs of characters other than a blank. -/
def shellWords (a : String) : List String :=
  ((a.data.splitOn ' ').filter (fun w => w ≠ [])).map String.mk

/-! ## `New`, `Run`, `restartTimer`, `Exit` -/

/-- The constructor `New` (app.go:101-130). `parseTitle` answers whether
`template.New("title").Parse` accepts the title format; `none` is the error
return. The literal sets neither `server` nor `timer`. -/
def New (parseTitle : String → Bool) (commandServer : String) (options : Options) :
    Option App :=
  if parseTitle options.TitleFormat = false then none
  else some
    { commandServer := commandServer
      options := options
      server := none
      timer := none
      connections := 0 }

/-- The method `App.Run` (app.go:132-148) up to the call of `ListenAndServe`:
`app.server` becomes the server `makeServer` builds, with no close requested and
no session in flight. Nothing else of the `App` is assigned. -/
def Run (app : App) : App :=
  { app with server := some { closed := false, routines := 0 } }

/-- Nanoseconds in `time.Second`. -/
def timeSecond : Int := 1000000000

/-- The method `App.restartTimer` (app.go:158-162). `Timer.Reset` goes through
the pointer `app.timer`; through a nil pointer it panics. The product
`time.Duration(Timeout) * time.Second` is an `int64` product. -/
def restartTimer (app : App) : Except Panic App :=
  if app.options.Timeout > 0 then
    match app.timer with
    | none => .error .nilDereference
    | some _ =>
      .ok { app with timer := some ⟨wrapInt64 (app.options.Timeout * timeSecond)⟩ }
  else .ok app

/-- The method `App.Exit` (app.go:275-284): the value returned and the `App`
afterwards. -/
def App.Exit (app : App) : Bool × App :=
  match app.server with
  | some server =>
    let (firstCall, server) := server.Close
    (firstCall, { app with server := some server })
  | none => (true, app)

/-- The values returned by `n` calls of `Exit` in a row, and the `App`
afterwards. -/
def exitCalls : Nat → App → List Bool × App
  | 0, app => ([], app)
  | n + 1, app =>
    let (firstCall, app) := app.Exit
    let (rest, app) := exitCalls n app
    (firstCall :: rest, app)

/-- The goroutine of `registerSignals` (main.go:91-103) over `n` signals, each
SIGINT or SIGTERM: `some 5` once it has called `os.Exit(5)`, `none` while it
still waits for signals. -/
def registerSignals : Nat → App → Option Int × App
  | 0, app => (none, app)
  | n + 1, app =>
    let (firstCall, app) := app.Exit
    if firstCall then registerSignals n app else (some 5, app)

/-! ## `App.handleRequest` (app.go:249-273) -/

/-- Go's `strings.Split(s, "/")` for the one-byte separator `/`, on the
characters of `s`. The slice it returns has its capacity equal to its length. -/
def stringsSplit (s : String) : List String :=
  (s.data.splitOn '/').map String.mk

/-- Go's `strings.Join(elems, "/")`. -/
def stringsJoin (elems : List String) : String :=
  String.intercalate "/" elems

/-- Go's `strings.HasSuffix(s, suffix)`. -/
def stringsHasSuffix (s suffix : String) : Bool :=
  suffix.data.isSuffixOf s.data

/-- The slice expression `s[:n]` on a slice whose capacity is its length. -/
def sliceTo {α : Type} (s : List α) (n : Nat) : Except Panic (List α) :=
  if n ≤ s.length then .ok (s.take n) else .error .sliceBounds

/-- The index expression `s[i]`. -/
def indexAt {α : Type} (s : List α) (i : Nat) : Except Panic α :=
  match s.get? i with
  | some x => .ok x
  | none => .error .indexOutOfRange

/-- What `handleRequest` did with a request whose path it could parse. -/
inductive Served where
  /-- Call of `handleAuthToken`: the script written (app.go:179-182). -/
  | authToken (body : String)
  /-- Branch `/ws` when `readMapping` calls `log.Fatal`. -/
  | fatal
  /-- Branch `/ws` with session identifier `id`: the result of `handleWS`, or
  `none` when the mapping has no such identifier. -/
  | ws (id : String) (result : Option WSResult)
  /-- Static files served below the path `pfx`, from `IndexFile` when that is
  set (`fromIndexFile`), from the bundled assets otherwise. -/
  | static (pfx : String) (fromIndexFile : Bool)
  deriving DecidableEq, Repr

/-- The handler `App.handleRequest`. `mapping` is what `readMapping` returns
(`none` when it ends the process through `log.Fatal`); `env` answers for the
collaborators of `handleWS`. An `.error` is a panic raised while the path is
taken apart (app.go:251-259). -/
def handleRequest (app : App) (r : Request) (mapping : Option (List (String × List String)))
    (env : Collaborators) : Except Panic (App × Served) := do
  let path := r.Path
  let parts := stringsSplit path
  let pfx := stringsJoin (← sliceTo parts 3)
  if stringsHasSuffix path "/auth_token.js" then
    pure (app, .authToken ("var gotty_auth_token = \x27" ++ app.options.Credential ++ "\x27;"))
  else if stringsHasSuffix path "/ws" then
    let id ← indexAt parts 2
    match mapping with
    | none => pure (app, .fatal)
    | some mapping =>
      match mapping.lookup id with
      | some command =>
        let result := handleWS app command r env
        pure (result.app, .ws id (some result))
      | none => pure (app, .ws id none)
  else
    pure (app, .static pfx (app.options.IndexFile != ""))

/-! ## Concrete inputs and runs of the handlers -/

/-- The exit `handleWS` takes on the answer of `pty.Start` (app.go:223-246):
return on an error, `goHandleClient` with the started process otherwise. -/
def spawnExit : Option Nat → Outcome
  | none => .spawnFailed
  | some pid => .running pid

/-- A server with token checking enabled and credential `secret`, after `Run`. -/
def tokenApp : App :=
  Run
    { commandServer := "http://127.0.0.1:9000/mapping"
      options := { DefaultOptions with EnableBasicAuth := true, Credential := "secret" }
      server := none
      timer := none
      connections := 0 }

/-- A handshake whose `AuthToken` is not the credential of `tokenApp`. -/
def wrongTokenInit : InitMessage := { Arguments := "", AuthToken := "wrong" }

/-- The first message carrying `wrongTokenInit`, as JSON text. -/
def wrongTokenStream : String := "\x7b\"AuthToken\":\"wrong\"\x7d"

/-- Collaborators that all succeed; the first message decodes to `wrongTokenInit`. -/
def wrongTokenEnv : Collaborators :=
  { upgrade := true
    readMessage := some wrongTokenStream
    unmarshal := fun _ => some wrongTokenInit
    ptyStart := fun _ => some 4242 }

/-- A GET request for the WebSocket endpoint of session `abc`. -/
def wsRequest : Request :=
  { Method := "GET", Path := "/proxy/abc/ws", RemoteAddr := "192.0.2.7:51234" }

/-- A server with the default options (`PermitArguments` false), after `Run`. -/
def defaultApp : App :=
  Run
    { commandServer := "http://127.0.0.1:9000/mapping"
      options := DefaultOptions
      server := none
      timer := none
      connections := 0 }

/-- A handshake that carries extra arguments. -/
def argumentsInit : InitMessage := { Arguments := "there", AuthToken := "" }

/-- The first message carrying `argumentsInit`, as JSON text. -/
def argumentsStream : String := "\x7b\"Arguments\":\"there\"\x7d"

/-- Collaborators that all succeed; the first message decodes to `argumentsInit`. -/
def argumentsEnv : Collaborators :=
  { upgrade := true
    readMessage := some argumentsStream
    unmarshal := fun _ => some argumentsInit
    ptyStart := fun _ => some 4242 }

/-- A server with `PermitArguments` set, after `Run`. -/
def permitApp : App :=
  Run
    { commandServer := "http://127.0.0.1:9000/mapping"
      options := { DefaultOptions with PermitArguments := true }
      server := none
      timer := none
      connections := 0 }

/-- Collaborators that all succeed, with an empty handshake object. -/
def okEnv : Collaborators :=
  { upgrade := true
    readMessage := some "\x7b\x7d"
    unmarshal := fun _ => some { Arguments := "", AuthToken := "" }
    ptyStart := fun _ => some 4242 }

/-- A server with connection limit `max`, after `Run`, with no connection yet. -/
def limitApp (max : Int) : App :=
  Run
    { commandServer := "http://127.0.0.1:9000/mapping"
      options := { DefaultOptions with MaxConnection := max }
      server := none
      timer := none
      connections := 0 }

/-- One admission attempt: a call of `handleWS` for `/bin/echo hi` in which every
collaborator succeeds. -/
def attempt (app : App) : WSResult :=
  handleWS app ["/bin/echo", "hi"] wsRequest okEnv

/-- The exits of `n` admission attempts in a row, and the `App` afterwards. -/
def attempts : Nat → App → List Outcome × App
  | 0, app => ([], app)
  | n + 1, app =>
    let (exits, app₂) := attempts n (attempt app).app
    ((attempt app).exit :: exits, app₂)

/-- A server with connection limit 1 whose one slot is taken. -/
def fullApp : App := { limitApp 1 with connections := 1 }

/-- A request with a method other than GET. -/
def postRequest : Request :=
  { Method := "POST", Path := "/proxy/abc/ws", RemoteAddr := "192.0.2.7:51234" }

/-- An `App` as `New` and `Run` leave it, with an idle timeout of five seconds. -/
def timeoutApp : App :=
  Run
    { commandServer := "http://127.0.0.1:9000/mapping"
      options := { DefaultOptions with Timeout := 5 }
      server := none
      timer := none
      connections := 0 }

/-- An `App` as `New` returns it, before `Run`. -/
def newApp : App :=
  { commandServer := "http://127.0.0.1:9000/mapping"
    options := DefaultOptions
    server := none
    timer := none
    connections := 0 }

/-! ## Lemmas on `int64` arithmetic -/

/-- Reduction to `int64` leaves a value of the `int64` range as it is. -/
theorem wrapInt64_of_range (x : Int) (h₁ : minInt64 ≤ x) (h₂ : x ≤ maxInt64) :
    wrapInt64 x = x := by
  unfold wrapInt64
  unfold minInt64 at h₁
  unfold maxInt64 at h₂
  rw [Int.emod_eq_of_lt (by omega) (by omega)]
  omega

/-- Adding one below the largest `int64` does not wrap. -/
theorem atomicAddInt64_succ (c : Int) (h₁ : minInt64 ≤ c) (h₂ : c < maxInt64) :
    atomicAddInt64 c 1 = c + 1 := by
  unfold atomicAddInt64
  exact wrapInt64_of_range (c + 1) (by omega) (by omega)

/-- Subtracting one above the smallest `int64` does not wrap. -/
theorem atomicAddInt64_pred (c : Int) (h₁ : minInt64 < c) (h₂ : c ≤ maxInt64) :
    atomicAddInt64 c (-1) = c - 1 := by
  unfold atomicAddInt64
  exact wrapInt64_of_range (c + -1) (by omega) (by omega)

/-- Adding one never returns the value it started from, wrapped or not. -/
theorem atomicAddInt64_one_ne (c : Int) : atomicAddInt64 c 1 ≠ c := by
  unfold atomicAddInt64 wrapInt64
  have h₁ := Int.emod_nonneg (c + 1 + 2 ^ 63) (show (2 ^ 64 : Int) ≠ 0 by norm_num)
  have h₂ := Int.emod_lt_of_pos (c + 1 + 2 ^ 63) (show (0 : Int) < 2 ^ 64 by norm_num)
  have h₃ := Int.emod_add_ediv (c + 1 + 2 ^ 63) (2 ^ 64)
  omega

/-! ## The admission gate of `handleWS` -/

/-- The counter after `handleWS`, on every path. -/
theorem handleWS_connections (app : App) (command : List String) (r : Request)
    (env : Collaborators) :
    (handleWS app command r env).app.connections = atomicAddInt64 app.connections 1 := by
  unfold handleWS
  simp only
  split_ifs
  · rfl
  · rfl
  · rfl
  · split
    · rfl
    · split
      · rfl
      · split
        · rfl
        · split
          · rfl
          · split <;> rfl

/-- The exit `reachedMax` is taken exactly when the gate rejects. -/
theorem handleWS_reachedMax_iff (app : App) (command : List String) (r : Request)
    (env : Collaborators) :
    (handleWS app command r env).exit = .reachedMax ↔
      (app.options.MaxConnection ≠ 0 ∧
        atomicAddInt64 app.connections 1 > app.options.MaxConnection) := by
  unfold handleWS
  simp only
  split_ifs with h
  · simp [h]
  · simp [h]
  · simp [h]
  · split
    · simp [h]
    · split
      · simp [h]
      · split
        · simp [h]
        · split
          · simp [h]
          · split <;> simp [h]

/-- C1: for every counter value `c` and every `MaxConnection` `m`, `handleWS`
raises the counter to `c+1` (Go's `int64` sum, which is the integer `c + 1` for
every `c` below the largest `int64`) on every path, and the call gets past the
gate if and only if `m == 0` or `c+1 <= m`; with `m == 0` no counter value is
rejected. -/
theorem handleWS_admission (app : App) (command : List String) (r : Request)
    (env : Collaborators) :
    (handleWS app command r env).app.connections = atomicAddInt64 app.connections 1 ∧
    ((handleWS app command r env).exit ≠ .reachedMax ↔
      (app.options.MaxConnection = 0 ∨
        atomicAddInt64 app.connections 1 ≤ app.options.MaxConnection)) ∧
    (app.options.MaxConnection = 0 → (handleWS app command r env).exit ≠ .reachedMax) ∧
    (minInt64 ≤ app.connections → app.connections < maxInt64 →
      atomicAddInt64 app.connections 1 = app.connections + 1) := by
  refine ⟨handleWS_connections app command r env, ?_, ?_, ?_⟩
  · rw [Ne, handleWS_reachedMax_iff]
    constructor
    · intro h
      by_cases hm : app.options.MaxConnection = 0
      · exact Or.inl hm
      · right
        by_contra hle
        exact h ⟨hm, by omega⟩
    · rintro (hm | hle) ⟨hne, hgt⟩
      · exact hne hm
      · omega
  · intro hm
    rw [Ne, handleWS_reachedMax_iff]
    exact fun h => h.1 hm
  · exact atomicAddInt64_succ app.connections

/-! ## From the handshake to the spawn -/

/-- The whole result of `handleWS` on the path that reaches `pty.Start`: the
gate is passed, the method is GET, the upgrade and the first read succeed, the
first message decodes, the command is `name :: argv` and `app.server` is set. -/
theorem handleWS_reaches_spawn (app : App) (r : Request) (env : Collaborators)
    (stream : String) (init : InitMessage) (name : String) (argv : List String)
    (server : GracefulServer)
    (hgate : app.options.MaxConnection = 0 ∨
      atomicAddInt64 app.connections 1 ≤ app.options.MaxConnection)
    (hget : r.Method = "GET") (hup : env.upgrade = true)
    (hread : env.readMessage = some stream) (hparse : env.unmarshal stream = some init)
    (hserver : app.server = some server) :
    handleWS app (name :: argv) r env =
      { app := { app with
                 connections := atomicAddInt64 app.connections 1
                 server := some server.StartRoutine }
        conn := some ⟨false⟩
        cmd := some ⟨name, argv⟩
        exit := spawnExit (env.ptyStart ⟨name, argv⟩) } := by
  have hg : ¬ (app.options.MaxConnection ≠ 0 ∧
      atomicAddInt64 app.connections 1 > app.options.MaxConnection) := by
    rintro ⟨hne, hgt⟩
    rcases hgate with hm | hle
    · exact hne hm
    · omega
  unfold handleWS
  simp only [hg, hget, hup, hread, hparse, hserver, if_false, ne_eq, not_true_eq_false,
    Bool.true_eq_false]
  cases h : env.ptyStart ⟨name, argv⟩ <;> simp [spawnExit]

/-- C2, counterexample: with `EnableBasicAuth` set and credential `secret`, a
handshake with `AuthToken` `wrong` is not turned away: `handleWS` hands
`/bin/echo hi` to `pty.Start`, the process runs and the connection stays open. -/
theorem handleWS_wrong_token_spawns :
    tokenApp.options.EnableBasicAuth = true ∧
    wrongTokenInit.AuthToken ≠ tokenApp.options.Credential ∧
    (handleWS tokenApp ["/bin/echo", "hi"] wsRequest wrongTokenEnv).cmd =
      some ⟨"/bin/echo", ["hi"]⟩ ∧
    (handleWS tokenApp ["/bin/echo", "hi"] wsRequest wrongTokenEnv).exit = .running 4242 ∧
    (handleWS tokenApp ["/bin/echo", "hi"] wsRequest wrongTokenEnv).conn = some ⟨false⟩ := by
  decide

/-- C2, amended: `handleWS` compares no token. For every configuration (whatever
`EnableBasicAuth` and `Credential` hold) and every first message that decodes as
an `InitMessage` (whatever its `AuthToken`), a call that passed the gate, the
method check and the upgrade goes on to the spawn: the command is handed to
`pty.Start` and the connection is left open. -/
theorem handleWS_no_token_check (app : App) (r : Request) (env : Collaborators)
    (stream : String) (init : InitMessage) (name : String) (argv : List String)
    (server : GracefulServer)
    (hgate : app.options.MaxConnection = 0 ∨
      atomicAddInt64 app.connections 1 ≤ app.options.MaxConnection)
    (hget : r.Method = "GET") (hup : env.upgrade = true)
    (hread : env.readMessage = some stream) (hparse : env.unmarshal stream = some init)
    (hserver : app.server = some server) :
    (handleWS app (name :: argv) r env).cmd = some ⟨name, argv⟩ ∧
    (handleWS app (name :: argv) r env).conn = some ⟨false⟩ ∧
    (handleWS app (name :: argv) r env).exit = spawnExit (env.ptyStart ⟨name, argv⟩) := by
  rw [handleWS_reaches_spawn app r env stream init name argv server hgate hget hup hread
    hparse hserver]
  exact ⟨rfl, rfl, rfl⟩

/-- The spawn is reached with token checking enabled and a wrong token. -/
theorem handleWS_no_token_check_witness :
    (handleWS tokenApp ("/bin/echo" :: ["hi"]) wsRequest wrongTokenEnv).cmd =
      some ⟨"/bin/echo", ["hi"]⟩ ∧
    (handleWS tokenApp ("/bin/echo" :: ["hi"]) wsRequest wrongTokenEnv).conn = some ⟨false⟩ ∧
    (handleWS tokenApp ("/bin/echo" :: ["hi"]) wsRequest wrongTokenEnv).exit =
      spawnExit (wrongTokenEnv.ptyStart ⟨"/bin/echo", ["hi"]⟩) :=
  handleWS_no_token_check tokenApp wsRequest wrongTokenEnv wrongTokenStream
    wrongTokenInit "/bin/echo" ["hi"] { closed := false, routines := 0 }
    (Or.inl (by decide)) (by decide) rfl rfl rfl rfl

/-! ## The command that is spawned -/

/-- The command `handleWS` hands to `pty.Start` on the path that reaches it, for
every non-empty `command`: program `command[0]`, arguments `command[1:]`. The
decoded `InitMessage` and the options play no part. -/
theorem handleWS_cmd (app : App) (command : List String) (r : Request)
    (env : Collaborators) (stream : String) (init : InitMessage) (server : GracefulServer)
    (hcmd : command ≠ [])
    (hgate : app.options.MaxConnection = 0 ∨
      atomicAddInt64 app.connections 1 ≤ app.options.MaxConnection)
    (hget : r.Method = "GET") (hup : env.upgrade = true)
    (hread : env.readMessage = some stream) (hparse : env.unmarshal stream = some init)
    (hserver : app.server = some server) :
    handleWS app command r env =
      { app := { app with
                 connections := atomicAddInt64 app.connections 1
                 server := some server.StartRoutine }
        conn := some ⟨false⟩
        cmd := some ⟨command.head hcmd, command.tail⟩
        exit := spawnExit (env.ptyStart ⟨command.head hcmd, command.tail⟩) } := by
  cases command with
  | nil => exact absurd rfl hcmd
  | cons name argv =>
    exact handleWS_reaches_spawn app r env stream init name argv server hgate hget hup hread
      hparse hserver

/-- C5: with `PermitArguments` false, for every non-empty command and every
first message that decodes as an `InitMessage`, the command `handleWS` hands to
`pty.Start` has program `command[0]` and argument list `command[1:]`, the
process that starts is that command, and putting any other `InitMessage` (any
other `Arguments`) in place of the decoded one leaves the whole result
unchanged. -/
theorem handleWS_arguments_ignored (app : App) (command : List String) (r : Request)
    (env : Collaborators) (stream : String) (init : InitMessage) (server : GracefulServer)
    (hperm : app.options.PermitArguments = false) (hcmd : command ≠ [])
    (hgate : app.options.MaxConnection = 0 ∨
      atomicAddInt64 app.connections 1 ≤ app.options.MaxConnection)
    (hget : r.Method = "GET") (hup : env.upgrade = true)
    (hread : env.readMessage = some stream) (hparse : env.unmarshal stream = some init)
    (hserver : app.server = some server) :
    (handleWS app command r env).cmd = some ⟨command.head hcmd, command.tail⟩ ∧
    (handleWS app command r env).exit =
      spawnExit (env.ptyStart ⟨command.head hcmd, command.tail⟩) ∧
    (∀ init₂ : InitMessage,
      handleWS app command r { env with unmarshal := fun _ => some init₂ } =
        handleWS app command r env) := by
  have _ := hperm
  refine ⟨?_, ?_, ?_⟩
  · rw [handleWS_cmd app command r env stream init server hcmd hgate hget hup hread hparse
      hserver]
  · rw [handleWS_cmd app command r env stream init server hcmd hgate hget hup hread hparse
      hserver]
  · intro init₂
    rw [handleWS_cmd app command r env stream init server hcmd hgate hget hup hread hparse
      hserver]
    exact handleWS_cmd app command r { env with unmarshal := fun _ => some init₂ } stream
      init₂ server hcmd hgate hget hup hread rfl hserver

/-- The command `/bin/echo hi` with the handshake `Arguments` `there` under the
default options is spawned as it is. -/
theorem handleWS_arguments_ignored_witness :
    (handleWS defaultApp ["/bin/echo", "hi"] wsRequest argumentsEnv).cmd =
      some ⟨"/bin/echo", ["hi"]⟩ ∧
    (handleWS defaultApp ["/bin/echo", "hi"] wsRequest argumentsEnv).exit =
      spawnExit (argumentsEnv.ptyStart ⟨"/bin/echo", ["hi"]⟩) ∧
    (∀ init₂ : InitMessage,
      handleWS defaultApp ["/bin/echo", "hi"] wsRequest
          { argumentsEnv with unmarshal := fun _ => some init₂ } =
        handleWS defaultApp ["/bin/echo", "hi"] wsRequest argumentsEnv) :=
  handleWS_arguments_ignored defaultApp ["/bin/echo", "hi"] wsRequest argumentsEnv
    argumentsStream argumentsInit { closed := false, routines := 0 } rfl (by decide)
    (Or.inl (by decide)) (by decide) rfl rfl rfl rfl

/-- C6, counterexample: with `PermitArguments` true, command `/bin/echo hi` and
handshake `Arguments` `there` (one token, `there`), the argument list handed to
`pty.Start` is `hi`, not `hi there`. -/
theorem handleWS_permit_arguments_not_appended :
    permitApp.options.PermitArguments = true ∧
    shellWords argumentsInit.Arguments = ["there"] ∧
    (handleWS permitApp ["/bin/echo", "hi"] wsRequest argumentsEnv).exit = .running 4242 ∧
    (handleWS permitApp ["/bin/echo", "hi"] wsRequest argumentsEnv).cmd =
      some ⟨"/bin/echo", ["hi"]⟩ ∧
    (handleWS permitApp ["/bin/echo", "hi"] wsRequest argumentsEnv).cmd ≠
      some ⟨"/bin/echo", ["hi"] ++ shellWords argumentsInit.Arguments⟩ := by
  decide

/-- C6, amended: with `PermitArguments` true, for every non-empty command and
every first message that decodes as an `InitMessage` with `Arguments` string
`a`, the argument list of the command `handleWS` hands to `pty.Start` is exactly
`command[1:]`: no token of `a` is appended. -/
theorem handleWS_permit_arguments (app : App) (command : List String) (r : Request)
    (env : Collaborators) (stream : String) (init : InitMessage) (server : GracefulServer)
    (hperm : app.options.PermitArguments = true) (hcmd : command ≠ [])
    (hgate : app.options.MaxConnection = 0 ∨
      atomicAddInt64 app.connections 1 ≤ app.options.MaxConnection)
    (hget : r.Method = "GET") (hup : env.upgrade = true)
    (hread : env.readMessage = some stream) (hparse : env.unmarshal stream = some init)
    (hserver : app.server = some server) :
    (handleWS app command r env).cmd.map Cmd.arg = some command.tail ∧
    (handleWS app command r env).cmd.map Cmd.name = some (command.head hcmd) ∧
    (handleWS app command r env).exit =
      spawnExit (env.ptyStart ⟨command.head hcmd, command.tail⟩) := by
  have _ := hperm
  rw [handleWS_cmd app command r env stream init server hcmd hgate hget hup hread hparse
    hserver]
  exact ⟨rfl, rfl, rfl⟩

/-- The command `/bin/echo hi` with the handshake `Arguments` `there` and
`PermitArguments` set is spawned as it is. -/
theorem handleWS_permit_arguments_witness :
    (handleWS permitApp ["/bin/echo", "hi"] wsRequest argumentsEnv).cmd.map Cmd.arg =
      some ["hi"] ∧
    (handleWS permitApp ["/bin/echo", "hi"] wsRequest argumentsEnv).cmd.map Cmd.name =
      some "/bin/echo" ∧
    (handleWS permitApp ["/bin/echo", "hi"] wsRequest argumentsEnv).exit =
      spawnExit (argumentsEnv.ptyStart ⟨"/bin/echo", ["hi"]⟩) :=
  handleWS_permit_arguments permitApp ["/bin/echo", "hi"] wsRequest argumentsEnv
    argumentsStream argumentsInit { closed := false, routines := 0 } rfl (by decide)
    (Or.inl (by decide)) (by decide) rfl rfl rfl rfl

/-! ## The admission counter over several calls -/

/-- An attempt below the limit is admitted and the process runs. -/
theorem attempt_admitted (app : App) (server : GracefulServer)
    (hserver : app.server = some server) (hmin : minInt64 ≤ app.connections)
    (hle : app.connections + 1 ≤ app.options.MaxConnection)
    (hmax : app.options.MaxConnection ≤ maxInt64) :
    attempt app =
      { app := { app with
                 connections := app.connections + 1
                 server := some server.StartRoutine }
        conn := some ⟨false⟩
        cmd := some ⟨"/bin/echo", ["hi"]⟩
        exit := .running 4242 } := by
  have hadd : atomicAddInt64 app.connections 1 = app.connections + 1 :=
    atomicAddInt64_succ app.connections hmin (by omega)
  unfold attempt
  rw [handleWS_reaches_spawn app wsRequest okEnv "\x7b\x7d" ⟨"", ""⟩ "/bin/echo" ["hi"] server
    (Or.inr (by rw [hadd]; exact hle)) rfl rfl rfl rfl hserver, hadd]
  rfl

/-- An attempt at the limit is rejected, and the counter goes up all the same. -/
theorem attempt_rejected (app : App) (hmin : minInt64 ≤ app.connections)
    (hmax : app.connections < maxInt64) (hpos : app.options.MaxConnection ≠ 0)
    (hfull : app.options.MaxConnection ≤ app.connections) :
    (attempt app).exit = .reachedMax ∧
    (attempt app).app = { app with connections := app.connections + 1 } := by
  have hadd : atomicAddInt64 app.connections 1 = app.connections + 1 :=
    atomicAddInt64_succ app.connections hmin hmax
  have hg : app.options.MaxConnection ≠ 0 ∧
      app.connections + 1 > app.options.MaxConnection :=
    ⟨hpos, by omega⟩
  unfold attempt handleWS
  simp only [hadd]
  rw [if_pos hg]
  exact ⟨rfl, rfl⟩

/-- While the limit is not reached, `n` attempts in a row are all admitted and
raise the counter by `n`. -/
theorem attempts_admitted (n : Nat) (app : App) (server : GracefulServer)
    (hserver : app.server = some server) (hmin : minInt64 ≤ app.connections)
    (hle : app.connections + n ≤ app.options.MaxConnection)
    (hmax : app.options.MaxConnection ≤ maxInt64) :
    (attempts n app).1 = List.replicate n (.running 4242) ∧
    (attempts n app).2.connections = app.connections + n ∧
    (attempts n app).2.options = app.options ∧
    (attempts n app).2.server =
      some { server with routines := server.routines + n } := by
  induction n generalizing app server with
  | zero => simp [attempts, hserver]
  | succ n ih =>
    have h₁ := attempt_admitted app server hserver hmin (by push_cast at hle; omega) hmax
    have h₂ := ih (attempt app).app server.StartRoutine (by rw [h₁])
      (by rw [h₁]; show minInt64 ≤ app.connections + 1; omega)
      (by rw [h₁]; show app.connections + 1 + n ≤ app.options.MaxConnection
          push_cast at hle; omega)
      (by rw [h₁]; exact hmax)
    obtain ⟨e₁, e₂, e₃, e₄⟩ := h₂
    simp only [attempts]
    refine ⟨?_, ?_, ?_, ?_⟩
    · rw [e₁, h₁, List.replicate_succ]
    · rw [e₂, h₁]
      show app.connections + 1 + (n : Int) = app.connections + ((n + 1 : Nat) : Int)
      push_cast
      omega
    · rw [e₃, h₁]
    · rw [e₄]
      simp only [GracefulServer.StartRoutine]
      congr 2
      push_cast
      omega

/-- For every limit `max` with `0 < max` below the largest `int64`, from a
counter of zero: `max` attempts are admitted, the next one is rejected and
leaves the counter at `max + 1`; after one teardown the counter is `max`, and
the attempt that follows is rejected, with the counter at `max + 1` again. -/
theorem attempts_after_rejection (max : Nat) (h₀ : 0 < max) (h₁ : (max : Int) < maxInt64) :
    (attempts max (limitApp max)).1 = List.replicate max (.running 4242) ∧
    (attempt (attempts max (limitApp max)).2).exit = .reachedMax ∧
    (attempt (attempts max (limitApp max)).2).app.connections = max + 1 ∧
    (teardown (attempt (attempts max (limitApp max)).2).app).connections = max ∧
    (attempt (teardown (attempt (attempts max (limitApp max)).2).app)).exit = .reachedMax ∧
    (attempt (teardown (attempt (attempts max (limitApp max)).2).app)).app.connections =
      max + 1 := by
  have hmin : minInt64 ≤ 0 := by decide
  obtain ⟨e₁, e₂, e₃, _⟩ := attempts_admitted max (limitApp max) ⟨false, 0⟩ rfl hmin
    (by show (0 : Int) + max ≤ max; omega) (by show (max : Int) ≤ maxInt64; omega)
  have e₂ : (attempts max (limitApp max)).2.connections = max := by
    rw [e₂]; show (0 : Int) + max = max; omega
  have e₃ : (attempts max (limitApp max)).2.options.MaxConnection = max := by rw [e₃]; rfl
  have hminv : minInt64 = -(2 ^ 63) := rfl
  obtain ⟨r₁, r₂⟩ := attempt_rejected (attempts max (limitApp max)).2
    (by rw [e₂, hminv]; omega) (by rw [e₂]; exact h₁) (by rw [e₃]; omega)
    (by rw [e₂, e₃])
  have t₁ : (teardown (attempt (attempts max (limitApp max)).2).app).connections = max := by
    rw [r₂]
    show atomicAddInt64 ((attempts max (limitApp max)).2.connections + 1) (-1) = max
    rw [e₂, atomicAddInt64_pred _ (by rw [hminv]; omega) (by omega)]
    omega
  have t₂ : (teardown (attempt (attempts max (limitApp max)).2).app).options.MaxConnection =
      max := by
    rw [r₂]; exact e₃
  obtain ⟨r₃, r₄⟩ := attempt_rejected (teardown (attempt (attempts max (limitApp max)).2).app)
    (by rw [t₁, hminv]; omega) (by rw [t₁]; exact h₁) (by rw [t₂]; omega)
    (by rw [t₁, t₂])
  refine ⟨e₁, r₁, ?_, t₁, r₃, ?_⟩
  · rw [r₂]
    show (attempts max (limitApp max)).2.connections + 1 = max + 1
    rw [e₂]
  · rw [r₄]
    show (teardown (attempt (attempts max (limitApp max)).2).app).connections + 1 = max + 1
    rw [t₁]

/-- C3, at `max = 2`, from a counter of zero: two attempts are admitted (counter
2), the third is rejected and leaves the counter at 3, one admitted session
tears down (counter 2), and the next attempt raises the counter to 3 and is
rejected as well. -/
theorem handleWS_slot_lost_after_rejection :
    (limitApp 2).connections = 0 ∧
    (attempts 2 (limitApp 2)).1 = [.running 4242, .running 4242] ∧
    (attempts 2 (limitApp 2)).2.connections = 2 ∧
    (attempt (attempts 2 (limitApp 2)).2).exit = .reachedMax ∧
    (attempt (attempts 2 (limitApp 2)).2).app.connections = 3 ∧
    (teardown (attempt (attempts 2 (limitApp 2)).2).app).connections = 2 ∧
    (attempt (teardown (attempt (attempts 2 (limitApp 2)).2).app)).exit = .reachedMax ∧
    (attempt (teardown (attempt (attempts 2 (limitApp 2)).2).app)).app.connections = 3 := by
  decide

/-- C4, on the code: no call of `handleWS` leaves the counter at its value
before the call, and on each of the six exits without a running session
(rejection, method other than GET, upgrade failure, read failure, decoding
failure, spawn failure) the counter stays one above that value. -/
theorem handleWS_counter_not_restored :
    (∀ (app : App) (command : List String) (r : Request) (env : Collaborators),
      (handleWS app command r env).app.connections ≠ app.connections) ∧
    ((handleWS fullApp ["/bin/echo", "hi"] wsRequest okEnv).exit = .reachedMax ∧
      fullApp.connections = 1 ∧
      (handleWS fullApp ["/bin/echo", "hi"] wsRequest okEnv).app.connections = 2) ∧
    ((handleWS defaultApp ["/bin/echo", "hi"] postRequest okEnv).exit = .methodNotAllowed ∧
      defaultApp.connections = 0 ∧
      (handleWS defaultApp ["/bin/echo", "hi"] postRequest okEnv).app.connections = 1) ∧
    ((handleWS defaultApp ["/bin/echo", "hi"] wsRequest
        { okEnv with upgrade := false }).exit = .upgradeFailed ∧
      (handleWS defaultApp ["/bin/echo", "hi"] wsRequest
        { okEnv with upgrade := false }).app.connections = 1) ∧
    ((handleWS defaultApp ["/bin/echo", "hi"] wsRequest
        { okEnv with readMessage := none }).exit = .readFailed ∧
      (handleWS defaultApp ["/bin/echo", "hi"] wsRequest
        { okEnv with readMessage := none }).app.connections = 1) ∧
    ((handleWS defaultApp ["/bin/echo", "hi"] wsRequest
        { okEnv with unmarshal := fun _ => none }).exit = .parseFailed ∧
      (handleWS defaultApp ["/bin/echo", "hi"] wsRequest
        { okEnv with unmarshal := fun _ => none }).app.connections = 1) ∧
    ((handleWS defaultApp ["/bin/echo", "hi"] wsRequest
        { okEnv with ptyStart := fun _ => none }).exit = .spawnFailed ∧
      (handleWS defaultApp ["/bin/echo", "hi"] wsRequest
        { okEnv with ptyStart := fun _ => none }).app.connections = 1) := by
  refine ⟨?_, by decide, by decide, by decide, by decide, by decide, by decide⟩
  intro app command r env
  rw [handleWS_connections]
  exact atomicAddInt64_one_ne app.connections

/-- C7, on the code: when `pty.Start` fails, `handleWS` returns with the
upgraded connection still open and with the session-start mark unmatched (one
more session in flight than before the call); the returns after a failed read
and after a failed decoding do close the connection. -/
theorem handleWS_spawn_failure_releases_nothing :
    (∀ (app : App) (r : Request) (env : Collaborators) (stream : String)
        (init : InitMessage) (name : String) (argv : List String) (server : GracefulServer),
      (app.options.MaxConnection = 0 ∨
        atomicAddInt64 app.connections 1 ≤ app.options.MaxConnection) →
      r.Method = "GET" → env.upgrade = true → env.readMessage = some stream →
      env.unmarshal stream = some init → app.server = some server →
      env.ptyStart ⟨name, argv⟩ = none →
        (handleWS app (name :: argv) r env).exit = .spawnFailed ∧
        (handleWS app (name :: argv) r env).conn = some ⟨false⟩ ∧
        (handleWS app (name :: argv) r env).app.server =
          some { server with routines := server.routines + 1 }) ∧
    (defaultApp.server = some { closed := false, routines := 0 } ∧
      (handleWS defaultApp ["/nonexistent"] wsRequest
        { okEnv with ptyStart := fun _ => none }).exit = .spawnFailed ∧
      (handleWS defaultApp ["/nonexistent"] wsRequest
        { okEnv with ptyStart := fun _ => none }).conn = some { closed := false } ∧
      (handleWS defaultApp ["/nonexistent"] wsRequest
        { okEnv with ptyStart := fun _ => none }).app.server =
          some { closed := false, routines := 1 }) ∧
    ((handleWS defaultApp ["/nonexistent"] wsRequest
        { okEnv with readMessage := none }).conn = some { closed := true } ∧
      (handleWS defaultApp ["/nonexistent"] wsRequest
        { okEnv with unmarshal := fun _ => none }).conn = some { closed := true }) := by
  refine ⟨?_, by decide, by decide⟩
  intro app r env stream init name argv server hgate hget hup hread hparse hserver hstart
  rw [handleWS_reaches_spawn app r env stream init name argv server hgate hget hup hread
    hparse hserver, hstart]
  exact ⟨rfl, rfl, rfl⟩

/-! ## The activity timer -/

/-- C8, on the code: `New` and `Run` create no timer, whatever `Timeout` is, so
with `Timeout > 0` the call `restartTimer` dereferences a nil `app.timer` and
panics (shown for every configuration and at `Timeout = 5`); with
`Timeout <= 0` it changes nothing; and on an `App` that does hold a timer it
resets it to `Timeout` seconds. -/
theorem restartTimer_after_New_Run :
    (∀ (parseTitle : String → Bool) (commandServer : String) (options : Options) (app : App),
      New parseTitle commandServer options = some app →
        (Run app).timer = none ∧
        (options.Timeout > 0 → restartTimer (Run app) = .error .nilDereference) ∧
        (options.Timeout ≤ 0 → restartTimer (Run app) = .ok (Run app))) ∧
    (New (fun _ => true) "http://127.0.0.1:9000/mapping"
        { DefaultOptions with Timeout := 5 } =
      some { commandServer := "http://127.0.0.1:9000/mapping"
             options := { DefaultOptions with Timeout := 5 }
             server := none
             timer := none
             connections := 0 } ∧
      timeoutApp.timer = none ∧
      restartTimer timeoutApp = .error .nilDereference) ∧
    (∀ (app : App) (t : Timer), app.timer = some t → 0 < app.options.Timeout →
      app.options.Timeout * timeSecond ≤ maxInt64 →
        restartTimer app =
          .ok { app with timer := some ⟨app.options.Timeout * timeSecond⟩ }) := by
  refine ⟨?_, by decide, ?_⟩
  · intro parseTitle commandServer options app hnew
    unfold New at hnew
    split_ifs at hnew
    cases hnew
    refine ⟨rfl, ?_, ?_⟩
    · intro hT
      simp [restartTimer, Run, hT]
    · intro hT
      have : ¬ options.Timeout > 0 := by omega
      simp [restartTimer, Run, this]
  · intro app t ht hT hmax
    have hw : wrapInt64 (app.options.Timeout * timeSecond) =
        app.options.Timeout * timeSecond := by
      apply wrapInt64_of_range _ _ hmax
      unfold minInt64 timeSecond
      omega
    simp [restartTimer, ht, hT, hw]

/-! ## `Exit` and repeated signals -/

/-- On a server that a close was requested of, every call of `Exit` returns false. -/
theorem exitCalls_closed (n : Nat) (app : App) (server : GracefulServer)
    (hs : app.server = some server) (hc : server.closed = true) :
    (exitCalls n app).1 = List.replicate n false := by
  induction n generalizing app server with
  | zero => rfl
  | succ n ih =>
    have h := ih { app with server := some (server.Close).2 } (server.Close).2 rfl rfl
    simp only [exitCalls, App.Exit, hs]
    simp only [List.replicate_succ]
    rw [h]
    simp [GracefulServer.Close, hc]

/-- While `app.server` is nil, every call of `Exit` returns true. -/
theorem exitCalls_nil_server (n : Nat) (app : App) (hs : app.server = none) :
    (exitCalls n app).1 = List.replicate n true := by
  induction n with
  | zero => rfl
  | succ n ih =>
    simp only [exitCalls, App.Exit, hs]
    simp only [List.replicate_succ]
    rw [ih]

/-- While `app.server` is nil, no number of signals reaches `os.Exit(5)`. -/
theorem registerSignals_nil_server (n : Nat) (app : App) (hs : app.server = none) :
    (registerSignals n app).1 = none := by
  induction n with
  | zero => rfl
  | succ n ih =>
    simp only [registerSignals, App.Exit, hs]
    simpa using ih

/-- C9, counterexample: on the `App` that `New` returns, before `Run` has set
`app.server`, the second and the third call of `Exit` return true as well, and
three signals in a row do not reach `os.Exit(5)`. -/
theorem Exit_before_Run_always_first :
    New (fun _ => true) "http://127.0.0.1:9000/mapping" DefaultOptions = some newApp ∧
    newApp.server = none ∧
    (exitCalls 3 newApp).1 = [true, true, true] ∧
    (registerSignals 3 newApp).1 = none := by
  decide

/-- C9, amended: once `app.server` is set, in every sequence of calls the first
`Exit` returns whether no close had been requested before (true on the server
`Run` has just set) and every later call returns false, so the second signal
ends the process with code 5; while `app.server` is nil every call of `Exit`
returns true and no number of signals reaches `os.Exit(5)`. -/
theorem Exit_firstCall (app : App) (n : Nat) :
    (∀ server : GracefulServer, app.server = some server →
      (exitCalls (n + 1) app).1 = (!server.closed) :: List.replicate n false) ∧
    (exitCalls (n + 1) (Run app)).1 = true :: List.replicate n false ∧
    (registerSignals (n + 2) (Run app)).1 = some 5 ∧
    (app.server = none →
      (exitCalls n app).1 = List.replicate n true ∧ (registerSignals n app).1 = none) := by
  have key : ∀ (a : App) (server : GracefulServer), a.server = some server →
      (exitCalls (n + 1) a).1 = (!server.closed) :: List.replicate n false := by
    intro a server hs
    have h := exitCalls_closed n { a with server := some (server.Close).2 } (server.Close).2
      rfl rfl
    simp only [exitCalls, App.Exit, hs]
    rw [h]
    simp [GracefulServer.Close]
  refine ⟨key app, ?_, ?_, ?_⟩
  · exact key (Run app) { closed := false, routines := 0 } rfl
  · simp [registerSignals, App.Exit, Run, GracefulServer.Close]
  · intro hs
    exact ⟨exitCalls_nil_server n app hs, registerSignals_nil_server n app hs⟩

/-! ## Path parsing in `handleRequest` -/

/-- Splitting at `/` gives one part more than there are slashes. -/
theorem splitOn_length (cs : List Char) :
    (cs.splitOn '/').length = cs.count '/' + 1 := by
  induction cs with
  | nil => rfl
  | cons c cs ih =>
    have ih₂ : (List.splitOnP (fun x => x == '/') cs).length = cs.count '/' + 1 := ih
    show (List.splitOnP (fun x => x == '/') (c :: cs)).length = _
    rw [List.splitOnP_cons]
    by_cases h : c = '/'
    · subst h
      simp [ih₂]
    · have hb : (c == '/') = false := by simpa using h
      simp [hb, ih₂, List.count_cons, h]

/-- The number of parts `strings.Split(path, "/")` returns is the number of
slashes in `path` plus one. -/
theorem stringsSplit_length (s : String) :
    (stringsSplit s).length = s.data.count '/' + 1 := by
  unfold stringsSplit
  rw [List.length_map, splitOn_length]

/-- C10: for every request whose path splits on `/` into fewer than three parts
(such as `/` and `/ws`, two parts each) `handleRequest` panics at `parts[:3]`,
whatever the suffix of the path, the mapping and the collaborators are; for
every path with at least three parts `parts[:3]` and `parts[2]` are in range and
`handleRequest` returns without a panic from path parsing. -/
theorem handleRequest_path_parts (app : App) (r : Request)
    (mapping : Option (List (String × List String))) (env : Collaborators) :
    ((stringsSplit r.Path).length < 3 →
      sliceTo (stringsSplit r.Path) 3 = .error .sliceBounds ∧
      handleRequest app r mapping env = .error .sliceBounds) ∧
    (3 ≤ (stringsSplit r.Path).length →
      sliceTo (stringsSplit r.Path) 3 = .ok ((stringsSplit r.Path).take 3) ∧
      (∃ id, indexAt (stringsSplit r.Path) 2 = .ok id) ∧
      (∃ served, handleRequest app r mapping env = .ok served)) ∧
    ((stringsSplit "/").length = 2 ∧ (stringsSplit "/ws").length = 2 ∧
      (stringsSplit "/proxy/abc/ws").length = 4) := by
  refine ⟨?_, ?_, by decide⟩
  · intro h
    have hs : sliceTo (stringsSplit r.Path) 3 = .error .sliceBounds := by
      unfold sliceTo
      rw [if_neg (by omega)]
    refine ⟨hs, ?_⟩
    unfold handleRequest
    simp only [hs]
    rfl
  · intro h
    have hs : sliceTo (stringsSplit r.Path) 3 = .ok ((stringsSplit r.Path).take 3) := by
      unfold sliceTo
      rw [if_pos h]
    obtain ⟨id, hid⟩ : ∃ id, (stringsSplit r.Path).get? 2 = some id := by
      cases hget : (stringsSplit r.Path).get? 2 with
      | none =>
        rw [List.get?_eq_none] at hget
        omega
      | some id => exact ⟨id, rfl⟩
    have hi : indexAt (stringsSplit r.Path) 2 = .ok id := by
      unfold indexAt
      rw [hid]
    refine ⟨hs, ⟨id, hi⟩, ?_⟩
    unfold handleRequest
    simp only [hs, hi, bind, Except.bind, pure, Except.pure]
    split_ifs
    · exact ⟨_, rfl⟩
    · cases mapping with
      | none => exact ⟨_, rfl⟩
      | some m =>
        dsimp only
        cases m.lookup id <;> exact ⟨_, rfl⟩
    · exact ⟨_, rfl⟩

end MultiGotty
